import Mathlib

/-!
Verification of the circuit-construction, sampling-report and error-handling
logic of the two Qiskit scripts in this repository:
  * `Algorithms/Basic 2 and 3 Qubit work/2 qubit GHZ state.py`
  * `Algorithms/Basic 2 and 3 Qubit work/3 Qubits GHZ state.py`

The circuits built by the scripts are shallowly embedded as Lean values of a
`Circuit` structure mirroring the Qiskit `QuantumCircuit` API calls actually
made (`h`, `cx`, `measure`).  The outcome distribution of a circuit is given
by an exact statevector semantics over the rationals (amplitudes are kept up
to a positive global normalisation factor, which cancels in probabilities).
The scripts' control flow around the external simulator and the
matplotlib try/except blocks is embedded as an explicit event-trace model.
-/

namespace QW

/-- One appended circuit operation: Hadamard on a qubit, Controlled-NOT with a
control and a target qubit, or a measurement binding a qubit to a classical
slot.  These are the only operation kinds the two scripts use. -/
inductive Op where
  | h (q : Nat)
  | cx (c t : Nat)
  | measure (q cl : Nat)
deriving DecidableEq, Repr

/-- A circuit description: declared width (qubits and classical slots) and the
ordered list of appended operations, exactly as Qiskit records them. -/
structure Circuit where
  numQubits : Nat
  numClbits : Nat
  ops : List Op
deriving DecidableEq, Repr

/-- `QuantumCircuit(nq, nc)` — a fresh circuit with no operations. -/
def QuantumCircuit (nq nc : Nat) : Circuit :=
  { numQubits := nq, numClbits := nc, ops := [] }

/-- `qc.h(q)` — append a Hadamard gate on qubit `q`. -/
def Circuit.h (c : Circuit) (q : Nat) : Circuit :=
  { c with ops := c.ops ++ [Op.h q] }

/-- `qc.cx(ctl, tgt)` — append a Controlled-NOT gate. -/
def Circuit.cx (c : Circuit) (ctl tgt : Nat) : Circuit :=
  { c with ops := c.ops ++ [Op.cx ctl tgt] }

/-- `qc.measure(qs, cs)` — append one measurement binding per zipped
qubit/classical-slot pair, in order. -/
def Circuit.measure (c : Circuit) (qs cs : List Nat) : Circuit :=
  { c with ops := c.ops ++ (List.zip qs cs).map (fun p => Op.measure p.1 p.2) }

/-- The Bell circuit `qc` built in `2 qubit GHZ state.py` (lines 19-42):
`QuantumCircuit(2, 2)`, `qc.h(0)`, `qc.cx(0, 1)`,
`qc.measure([0, 1], [0, 1])`. -/
def qc : Circuit :=
  (((QuantumCircuit 2 2).h 0).cx 0 1).measure [0, 1] [0, 1]

/-- The 3-qubit GHZ circuit `qc_ghz` built at the end of
`2 qubit GHZ state.py` (lines 90-94): `QuantumCircuit(3, 3)`,
`qc_ghz.h(0)`, `qc_ghz.cx(0, 1)`, `qc_ghz.cx(0, 2)`,
`qc_ghz.measure([0, 1, 2], [0, 1, 2])`. -/
def qcGhzFromBellScript : Circuit :=
  ((((QuantumCircuit 3 3).h 0).cx 0 1).cx 0 2).measure [0, 1, 2] [0, 1, 2]

/-- The 3-qubit GHZ circuit `qc_ghz` built in `3 Qubits GHZ state.py`
(lines 37-64): `QuantumCircuit(3, 3)`, `qc_ghz.h(0)`, `qc_ghz.cx(0, 1)`,
`qc_ghz.cx(0, 2)`, `qc_ghz.measure([0, 1, 2], [0, 1, 2])`. -/
def qc_ghz : Circuit :=
  ((((QuantumCircuit 3 3).h 0).cx 0 1).cx 0 2).measure [0, 1, 2] [0, 1, 2]

/-- The measurement bindings of a circuit, in appended order, as
(qubit, classical slot) pairs. -/
def measureBindings (c : Circuit) : List (Nat × Nat) :=
  c.ops.filterMap (fun op =>
    match op with
    | Op.measure q cl => some (q, cl)
    | _ => none)

/-- `true` exactly on Hadamard operations. -/
def Op.isH : Op → Bool
  | Op.h _ => true
  | _ => false

/-- `true` exactly on Controlled-NOT operations. -/
def Op.isCx : Op → Bool
  | Op.cx _ _ => true
  | _ => false

/-- `true` exactly on measurement bindings. -/
def Op.isMeasure : Op → Bool
  | Op.measure _ _ => true
  | _ => false

/-- The one construction-time error of the spec's circuit builder. -/
inductive BuildError where
  | InvalidWidth
deriving DecidableEq, Repr

/-- Modelled from the spec: `build_ghz_circuit(n)` is described in the spec
(section 4.1) but does not exist as a function in the source, which realizes
only the fixed case n = 3 as `qc_ghz`.  Per the spec's words: a Circuit with
`n` qubits and `n` classical slots; append Hadamard(qubit 0); for each qubit
`i` in 1..n-1 append Controlled-NOT(control=0, target=i); bind qubit `i` to
slot `i` for all `i`; the only error condition is the precondition failure
`InvalidWidth` when `n < 1`. -/
def build_ghz_circuit (n : Int) : Except BuildError Circuit :=
  if n < 1 then Except.error BuildError.InvalidWidth
  else
    Except.ok
      ((((List.range (n.toNat - 1)).map (fun i => i + 1)).foldl
          (fun c i => c.cx 0 i) ((QuantumCircuit n.toNat n.toNat).h 0)).measure
        (List.range n.toNat) (List.range n.toNat))

/-- Scaled amplitude vector of the initial all-zeros state.  Amplitudes drop
the global 1/sqrt 2 factor of each Hadamard: a positive global factor cancels
when squared amplitudes are normalised into probabilities. -/
def initAmp : Nat -> Int := fun b => if b = 0 then 1 else 0

/-- Hadamard on qubit `q` acting on scaled basis amplitudes. -/
def applyH (q : Nat) (psi : Nat -> Int) : Nat -> Int := fun b =>
  if b.testBit q then psi (b ^^^ (1 <<< q)) - psi b
  else psi b + psi (b ^^^ (1 <<< q))

/-- Controlled-NOT with control `ctl` and target `tgt`: a permutation of the
computational basis. -/
def applyCX (ctl tgt : Nat) (psi : Nat -> Int) : Nat -> Int := fun b =>
  if b.testBit ctl then psi (b ^^^ (1 <<< tgt)) else psi b

/-- Action of one operation on the amplitude vector.  Measurement bindings
come last in both scripts, so they leave the pre-measurement distribution
unchanged; their readout into classical slots is `readout`. -/
def applyOp : Op -> (Nat -> Int) -> (Nat -> Int)
  | Op.h q => applyH q
  | Op.cx ctl tgt => applyCX ctl tgt
  | Op.measure _ _ => id

/-- Final scaled amplitude vector of a circuit run from the all-zeros state. -/
def finalAmp (c : Circuit) : Nat -> Int :=
  c.ops.foldl (fun psi op => applyOp op psi) initAmp

/-- Squared final amplitude of basis state `b`: its unnormalised probability. -/
def weight (c : Circuit) (b : Nat) : Int := finalAmp c b * finalAmp c b

/-- Normalisation constant: total squared amplitude over the basis. -/
def totalWeight (c : Circuit) : Int :=
  ((List.range (2 ^ c.numQubits)).map (weight c)).sum

/-- Ideal probability of measuring basis state `b` on circuit `c`. -/
def outcomeProb (c : Circuit) (b : Nat) : Rat :=
  (weight c b : Rat) / (totalWeight c : Rat)

/-- Value held by classical slot `k` when the basis outcome is `b`: the last
measurement binding written to slot `k` reads its qubit there. -/
def clbitVal (c : Circuit) (b k : Nat) : Bool :=
  match ((measureBindings c).filter (fun p => p.2 == k)).getLast? with
  | some p => b.testBit p.1
  | none => false

/-- Character of one classical bit in a report key. -/
def bitChar (v : Bool) : Char := if v then '1' else '0'

/-- The bitstring key `get_counts` reports for basis outcome `b`: one
character per classical slot, highest slot leftmost. -/
def readout (c : Circuit) (b : Nat) : String :=
  String.mk (((List.range c.numClbits).reverse).map
    (fun k => bitChar (clbitVal c b k)))

/-- The report keys of a list of sampled basis outcomes. -/
def sampleStrings (c : Circuit) (outs : List Nat) : List String :=
  outs.map (readout c)

/-- The frequency table `get_counts` builds from the sampled keys: one entry
per distinct observed key, holding the key and its number of occurrences. -/
def countsOf (l : List String) : List (String × Nat) :=
  l.dedup.map (fun s => (s, l.count s))

/-- Modelled from the spec: the sampler is the external Aer `qasm_simulator`
(an external-collaborator boundary of the spec, not source of this
repository).  Per the spec's contract, one run of `shots` repetitions yields
one basis outcome per shot, each a width-bounded basis state of nonzero
probability under the circuit's ideal measurement distribution. -/
def ValidRun (c : Circuit) (shots : Nat) (outs : List Nat) : Prop :=
  outs.length = shots ∧ ∀ b ∈ outs, b < 2 ^ c.numQubits ∧ outcomeProb c b ≠ 0

/-- One observable step of a script run: backend interactions, console
reporting, and the best-effort histogram rendering. -/
inductive Event where
  | acquireBackend (handle : Nat)
  | built (which : String)
  | transpiled (which : String) (handle : Nat)
  | ran (which : String) (handle shots : Nat)
  | printedDiagram (which : String)
  | printedCounts (which : String)
  | attemptedPlot (which : String)
  | plotShown (which : String)
  | printedWarning (which : String)
deriving DecidableEq, Repr

/-- The try/except block around `plot_histogram`/`plt.show` in both scripts:
the plot is attempted; an exception raised inside the block is caught and the
warning prints run instead of the display, and either way control continues
past the block. -/
def plotBlock (which : String) (fails : Bool) : List Event :=
  Event.attemptedPlot which ::
    (if fails then [Event.printedWarning which] else [Event.plotShown which])

/-- Trace of `2 qubit GHZ state.py`, parameterised by whether the Bell and
GHZ histogram blocks raise.  The script builds `qc`, acquires one Aer backend
handle (line 47), transpiles and runs the Bell circuit on it, prints the Bell
diagram and counts, attempts the Bell plot, then builds `qc_ghz` and reuses
the same handle for the GHZ transpile and run (lines 95-96) before printing
and plotting the GHZ report. -/
def twoQubitScript (bellPlotFails ghzPlotFails : Bool) : List Event :=
  [Event.built "bell",
   Event.acquireBackend 0,
   Event.transpiled "bell" 0,
   Event.ran "bell" 0 1024,
   Event.printedDiagram "bell",
   Event.printedCounts "bell"]
  ++ plotBlock "bell" bellPlotFails
  ++ [Event.built "ghz",
      Event.transpiled "ghz" 0,
      Event.ran "ghz" 0 1024,
      Event.printedDiagram "ghz",
      Event.printedCounts "ghz"]
  ++ plotBlock "ghz" ghzPlotFails

/-- Trace of `3 Qubits GHZ state.py`: acquire the backend (line 24), build
`qc_ghz`, transpile and run it, print the diagram and the counts, then
attempt the plot inside the try/except block. -/
def threeQubitScript (ghzPlotFails : Bool) : List Event :=
  [Event.acquireBackend 0,
   Event.built "ghz",
   Event.transpiled "ghz" 0,
   Event.ran "ghz" 0 1024,
   Event.printedDiagram "ghz",
   Event.printedCounts "ghz"]
  ++ plotBlock "ghz" ghzPlotFails

/-- The spec's resource property (section 5) on a trace: every sampler run's
backend handle is acquired for that run alone, so run events are matched by
their own acquisitions. -/
def noHandleReuse (t : List Event) : Prop :=
  (t.filter (fun e =>
    match e with
    | Event.ran _ _ _ => true
    | _ => false)).length ≤
  (t.filter (fun e =>
    match e with
    | Event.acquireBackend _ => true
    | _ => false)).length

theorem foldl_cx_ops (l : List Nat) (base : Circuit) :
    (l.foldl (fun c i => c.cx 0 i) base).ops
      = base.ops ++ l.map (fun i => Op.cx 0 i) := by
  induction l generalizing base with
  | nil => simp
  | cons a l ih =>
    rw [List.foldl_cons, ih]
    simp [Circuit.cx]

theorem foldl_cx_numQubits (l : List Nat) (base : Circuit) :
    (l.foldl (fun c i => c.cx 0 i) base).numQubits = base.numQubits := by
  induction l generalizing base with
  | nil => rfl
  | cons a l ih =>
    rw [List.foldl_cons, ih]
    rfl

theorem foldl_cx_numClbits (l : List Nat) (base : Circuit) :
    (l.foldl (fun c i => c.cx 0 i) base).numClbits = base.numClbits := by
  induction l generalizing base with
  | nil => rfl
  | cons a l ih =>
    rw [List.foldl_cons, ih]
    rfl

theorem zip_self {α : Type} (l : List α) :
    l.zip l = l.map (fun a => (a, a)) := by
  induction l with
  | nil => rfl
  | cons a l ih => simp [List.zip_cons_cons, ih]

theorem filterMap_const_none {α β : Type} (l : List α) :
    l.filterMap (fun _ => (none : Option β)) = [] := by
  induction l with
  | nil => rfl
  | cons a l ih => simp [List.filterMap_cons, ih]

theorem filterMap_some_comp {α β : Type} (f : α → β) (l : List α) :
    l.filterMap (fun a => some (f a)) = l.map f := by
  induction l with
  | nil => rfl
  | cons a l ih => simp [List.filterMap_cons, ih]

end QW

/-- C1: the Bell-circuit builder produces a circuit with exactly 2 qubits and
2 classical slots whose operation sequence is exactly one Hadamard on qubit 0,
then one Controlled-NOT with control 0 and target 1, then the measurement
bindings qubit 0 to slot 0 and qubit 1 to slot 1, and nothing else. -/
theorem bell_circuit_exact :
    QW.qc = { numQubits := 2, numClbits := 2,
              ops := [QW.Op.h 0, QW.Op.cx 0 1,
                      QW.Op.measure 0 0, QW.Op.measure 1 1] } := by
  rfl

/-- C9: the 3-qubit GHZ circuit built at the end of `2 qubit GHZ state.py` and
the one built by the standalone `3 Qubits GHZ state.py` are identical circuit
descriptions: 3 qubits, 3 classical slots, gate sequence Hadamard on qubit 0,
Controlled-NOT(0,1), Controlled-NOT(0,2), and measurement bindings qubit i to
slot i for i = 0, 1, 2. -/
theorem ghz_circuits_identical :
    QW.qcGhzFromBellScript = QW.qc_ghz ∧
    QW.qc_ghz = { numQubits := 3, numClbits := 3,
                  ops := [QW.Op.h 0, QW.Op.cx 0 1, QW.Op.cx 0 2,
                          QW.Op.measure 0 0, QW.Op.measure 1 1,
                          QW.Op.measure 2 2] } :=
  ⟨rfl, rfl⟩

/-- C2: for every width n ≥ 1 the GHZ-circuit builder (modelled from the spec,
realized in the source only at n = 3 as `qc_ghz`) succeeds with an n-qubit,
n-classical-slot circuit whose operations are exactly one Hadamard on qubit 0,
then n-1 Controlled-NOT operations with control 0 and target i for
i = 1..n-1, then measurement bindings of each qubit i to the distinct slot i;
and at n = 3 the built circuit is exactly the source's `qc_ghz`. -/
theorem ghz_builder_general (n : Int) (hn : 1 ≤ n) :
    ∃ c, QW.build_ghz_circuit n = Except.ok c ∧
      c.numQubits = n.toNat ∧ c.numClbits = n.toNat ∧
      c.ops = QW.Op.h 0 ::
        ((List.range (n.toNat - 1)).map (fun i => QW.Op.cx 0 (i + 1))
          ++ (List.range n.toNat).map (fun i => QW.Op.measure i i)) ∧
      QW.measureBindings c = (List.range n.toNat).map (fun i => (i, i)) ∧
      ((QW.measureBindings c).map Prod.snd).Nodup ∧
      QW.build_ghz_circuit 3 = Except.ok QW.qc_ghz := by
  have hok : QW.build_ghz_circuit n = Except.ok
      ((((List.range (n.toNat - 1)).map (fun i => i + 1)).foldl
          (fun c i => c.cx 0 i) ((QW.QuantumCircuit n.toNat n.toNat).h 0)).measure
        (List.range n.toNat) (List.range n.toNat)) := by
    unfold QW.build_ghz_circuit
    rw [if_neg (not_lt.mpr hn)]
  refine ⟨_, hok, ?_, ?_, ?_, ?_, ?_, rfl⟩
  · simp [QW.Circuit.measure, QW.foldl_cx_numQubits, QW.Circuit.h,
      QW.QuantumCircuit]
  · simp [QW.Circuit.measure, QW.foldl_cx_numClbits, QW.Circuit.h,
      QW.QuantumCircuit]
  · simp [QW.Circuit.measure, QW.foldl_cx_ops, QW.Circuit.h,
      QW.QuantumCircuit, QW.zip_self, List.map_map, Function.comp_def]
  · simp [QW.measureBindings, QW.Circuit.measure, QW.foldl_cx_ops,
      QW.Circuit.h, QW.QuantumCircuit, QW.zip_self, List.map_map,
      Function.comp_def, List.filterMap_append, List.filterMap_map,
      QW.filterMap_const_none, QW.filterMap_some_comp]
  · simp [QW.measureBindings, QW.Circuit.measure, QW.foldl_cx_ops,
      QW.Circuit.h, QW.QuantumCircuit, QW.zip_self, List.map_map,
      Function.comp_def, List.filterMap_append, List.filterMap_map,
      QW.filterMap_const_none, QW.filterMap_some_comp, List.nodup_range]

/-- Witness for C2 at the concrete width n = 3, the case realized in the
source. -/
theorem ghz_builder_general_witness :
    1 ≤ (3 : Int) ∧
    ∃ c, QW.build_ghz_circuit 3 = Except.ok c ∧
      c.numQubits = (3 : Int).toNat ∧ c.numClbits = (3 : Int).toNat ∧
      c.ops = QW.Op.h 0 ::
        ((List.range ((3 : Int).toNat - 1)).map (fun i => QW.Op.cx 0 (i + 1))
          ++ (List.range (3 : Int).toNat).map (fun i => QW.Op.measure i i)) ∧
      QW.measureBindings c = (List.range (3 : Int).toNat).map (fun i => (i, i)) ∧
      ((QW.measureBindings c).map Prod.snd).Nodup ∧
      QW.build_ghz_circuit 3 = Except.ok QW.qc_ghz :=
  ⟨by norm_num, ghz_builder_general 3 (by norm_num)⟩

/-- C6: for every width n < 1 (zero or negative) the GHZ-circuit builder
(modelled from the spec) fails with `InvalidWidth`, and no other error
condition exists: for every n ≥ 1 it succeeds. -/
theorem ghz_builder_invalid_width :
    (∀ n : Int, n < 1 →
      QW.build_ghz_circuit n = Except.error QW.BuildError.InvalidWidth) ∧
    (∀ n : Int, 1 ≤ n → ∃ c, QW.build_ghz_circuit n = Except.ok c) := by
  constructor
  · intro n hn
    unfold QW.build_ghz_circuit
    rw [if_pos hn]
  · intro n hn
    exact ⟨_, by unfold QW.build_ghz_circuit; rw [if_neg (not_lt.mpr hn)]⟩

/-- Witness for C6 at the concrete widths n = 0, n = -2 and n = 1. -/
theorem ghz_builder_invalid_width_witness :
    QW.build_ghz_circuit 0 = Except.error QW.BuildError.InvalidWidth ∧
    QW.build_ghz_circuit (-2) = Except.error QW.BuildError.InvalidWidth ∧
    (∃ c, QW.build_ghz_circuit 1 = Except.ok c) :=
  ⟨ghz_builder_invalid_width.1 0 (by norm_num),
   ghz_builder_invalid_width.1 (-2) (by norm_num),
   ghz_builder_invalid_width.2 1 (by norm_num)⟩

/-- C7: the GHZ-circuit builder at width n = 1 succeeds with a degenerate
circuit holding exactly one Hadamard, zero Controlled-NOT operations, and one
measurement binding (qubit 0 to slot 0). -/
theorem ghz_builder_width_one :
    QW.build_ghz_circuit 1 =
      Except.ok { numQubits := 1, numClbits := 1,
                  ops := [QW.Op.h 0, QW.Op.measure 0 0] } ∧
    ∃ c, QW.build_ghz_circuit 1 = Except.ok c ∧
      c.ops.countP QW.Op.isH = 1 ∧ c.ops.countP QW.Op.isCx = 0 ∧
      c.ops.countP QW.Op.isMeasure = 1 ∧
      QW.measureBindings c = [(0, 0)] := by
  refine ⟨rfl, ⟨_, rfl, ?_, ?_, ?_, ?_⟩⟩ <;> rfl

theorem outcomeProb_ne_zero_weight {c : QW.Circuit} {b : Nat}
    (h : QW.outcomeProb c b ≠ 0) : QW.weight c b ≠ 0 := by
  intro hw
  apply h
  unfold QW.outcomeProb
  rw [hw]
  simp

theorem mem_countsOf_key (c : QW.Circuit) (outs : List Nat) (p : String × Nat)
    (hp : p ∈ QW.countsOf (QW.sampleStrings c outs)) :
    ∃ b ∈ outs, p.1 = QW.readout c b := by
  unfold QW.countsOf QW.sampleStrings at hp
  obtain ⟨s, hs, rfl⟩ := List.mem_map.1 hp
  obtain ⟨b, hb, rfl⟩ := List.mem_map.1 (List.mem_dedup.1 hs)
  exact ⟨b, hb, rfl⟩

theorem bell_support : ∀ b < 4, QW.weight QW.qc b ≠ 0 → b = 0 ∨ b = 3 := by
  decide

theorem ghz_support : ∀ b < 8, QW.weight QW.qc_ghz b ≠ 0 → b = 0 ∨ b = 7 := by
  decide

theorem bell_prob_zero : QW.outcomeProb QW.qc 0 = 1 / 2 := by
  unfold QW.outcomeProb
  rw [show QW.weight QW.qc 0 = 1 by decide, show QW.totalWeight QW.qc = 2 by decide]
  norm_num

theorem bell_prob_three : QW.outcomeProb QW.qc 3 = 1 / 2 := by
  unfold QW.outcomeProb
  rw [show QW.weight QW.qc 3 = 1 by decide, show QW.totalWeight QW.qc = 2 by decide]
  norm_num

theorem ghz_prob_zero : QW.outcomeProb QW.qc_ghz 0 = 1 / 2 := by
  unfold QW.outcomeProb
  rw [show QW.weight QW.qc_ghz 0 = 1 by decide,
    show QW.totalWeight QW.qc_ghz = 2 by decide]
  norm_num

theorem ghz_prob_seven : QW.outcomeProb QW.qc_ghz 7 = 1 / 2 := by
  unfold QW.outcomeProb
  rw [show QW.weight QW.qc_ghz 7 = 1 by decide,
    show QW.totalWeight QW.qc_ghz = 2 by decide]
  norm_num

theorem bell_keys (outs : List Nat)
    (h : ∀ b ∈ outs, b < 2 ^ QW.qc.numQubits ∧ QW.outcomeProb QW.qc b ≠ 0)
    (p : String × Nat) (hp : p ∈ QW.countsOf (QW.sampleStrings QW.qc outs)) :
    p.1 = "00" ∨ p.1 = "11" := by
  obtain ⟨b, hb, hkey⟩ := mem_countsOf_key _ _ _ hp
  obtain ⟨hlt, hprob⟩ := h b hb
  have hlt4 : b < 4 := hlt
  rcases bell_support b hlt4 (outcomeProb_ne_zero_weight hprob) with rfl | rfl
  · left
    rw [hkey]
    decide
  · right
    rw [hkey]
    decide

theorem ghz_keys (outs : List Nat)
    (h : ∀ b ∈ outs, b < 2 ^ QW.qc_ghz.numQubits ∧ QW.outcomeProb QW.qc_ghz b ≠ 0)
    (p : String × Nat) (hp : p ∈ QW.countsOf (QW.sampleStrings QW.qc_ghz outs)) :
    p.1 = "000" ∨ p.1 = "111" := by
  obtain ⟨b, hb, hkey⟩ := mem_countsOf_key _ _ _ hp
  obtain ⟨hlt, hprob⟩ := h b hb
  have hlt8 : b < 8 := hlt
  rcases ghz_support b hlt8 (outcomeProb_ne_zero_weight hprob) with rfl | rfl
  · left
    rw [hkey]
    decide
  · right
    rw [hkey]
    decide

theorem countsOf_sum (l : List String) :
    ((QW.countsOf l).map Prod.snd).sum = l.length := by
  unfold QW.countsOf
  rw [List.map_map]
  exact List.sum_map_count_dedup_eq_length l

theorem validRun_bell_concrete :
    QW.ValidRun QW.qc 1024 (List.replicate 512 0 ++ List.replicate 512 3) := by
  constructor
  · rw [List.length_append, List.length_replicate, List.length_replicate]
  · intro b hb
    have hb2 : b = 0 ∨ b = 3 := by
      rcases List.mem_append.1 hb with hm | hm
      · exact Or.inl (List.eq_of_mem_replicate hm)
      · exact Or.inr (List.eq_of_mem_replicate hm)
    rcases hb2 with rfl | rfl
    · exact ⟨by decide, by rw [bell_prob_zero]; norm_num⟩
    · exact ⟨by decide, by rw [bell_prob_three]; norm_num⟩

theorem validRun_ghz_concrete :
    QW.ValidRun QW.qc_ghz 1024 (List.replicate 512 0 ++ List.replicate 512 7) := by
  constructor
  · rw [List.length_append, List.length_replicate, List.length_replicate]
  · intro b hb
    have hb2 : b = 0 ∨ b = 7 := by
      rcases List.mem_append.1 hb with hm | hm
      · exact Or.inl (List.eq_of_mem_replicate hm)
      · exact Or.inr (List.eq_of_mem_replicate hm)
    rcases hb2 with rfl | rfl
    · exact ⟨by decide, by rw [ghz_prob_zero]; norm_num⟩
    · exact ⟨by decide, by rw [ghz_prob_seven]; norm_num⟩

/-- C4: for every frequency table produced from the outcome list of one
sampler run, the counts over all bitstring keys sum to the configured shot
count (1024 in both scripts). -/
theorem counts_sum_eq_shots (c : QW.Circuit) (shots : Nat) (outs : List Nat)
    (hlen : outs.length = shots) :
    ((QW.countsOf (QW.sampleStrings c outs)).map Prod.snd).sum = shots := by
  rw [countsOf_sum]
  unfold QW.sampleStrings
  rw [List.length_map, hlen]

/-- Witness for C4 on a concrete 1024-shot run of the Bell circuit. -/
theorem counts_sum_eq_shots_witness :
    (List.replicate 1024 (0 : Nat)).length = 1024 ∧
    ((QW.countsOf (QW.sampleStrings QW.qc (List.replicate 1024 0))).map
      Prod.snd).sum = 1024 :=
  ⟨List.length_replicate 1024 0,
   counts_sum_eq_shots QW.qc 1024 (List.replicate 1024 0)
     (List.length_replicate 1024 0)⟩

/-- C3: for every valid 1024-shot sampler run of the Bell circuit the
frequency-table keys are a subset of {"00", "11"} and the counts sum to
exactly 1024, and the ideal (noiseless) distribution gives each of the two
outcomes probability exactly 1/2 (the basis states 0 and 3, reading out as
"00" and "11"); likewise for the 3-qubit GHZ circuit with keys from
{"000", "111"}, counts summing to 1024, and ideal probability 1/2 on each of
the basis states 0 and 7. -/
theorem sampling_matches_ideal_distribution (outs2 outs3 : List Nat)
    (h2 : QW.ValidRun QW.qc 1024 outs2)
    (h3 : QW.ValidRun QW.qc_ghz 1024 outs3) :
    (∀ p ∈ QW.countsOf (QW.sampleStrings QW.qc outs2),
      p.1 = "00" ∨ p.1 = "11") ∧
    ((QW.countsOf (QW.sampleStrings QW.qc outs2)).map Prod.snd).sum = 1024 ∧
    QW.outcomeProb QW.qc 0 = 1 / 2 ∧ QW.outcomeProb QW.qc 3 = 1 / 2 ∧
    QW.readout QW.qc 0 = "00" ∧ QW.readout QW.qc 3 = "11" ∧
    (∀ p ∈ QW.countsOf (QW.sampleStrings QW.qc_ghz outs3),
      p.1 = "000" ∨ p.1 = "111") ∧
    ((QW.countsOf (QW.sampleStrings QW.qc_ghz outs3)).map Prod.snd).sum = 1024 ∧
    QW.outcomeProb QW.qc_ghz 0 = 1 / 2 ∧ QW.outcomeProb QW.qc_ghz 7 = 1 / 2 ∧
    QW.readout QW.qc_ghz 0 = "000" ∧ QW.readout QW.qc_ghz 7 = "111" := by
  refine ⟨fun p hp => bell_keys outs2 h2.2 p hp, ?_,
    bell_prob_zero, bell_prob_three, by decide, by decide,
    fun p hp => ghz_keys outs3 h3.2 p hp, ?_,
    ghz_prob_zero, ghz_prob_seven, by decide, by decide⟩
  · rw [countsOf_sum]
    unfold QW.sampleStrings
    rw [List.length_map, h2.1]
  · rw [countsOf_sum]
    unfold QW.sampleStrings
    rw [List.length_map, h3.1]

/-- Witness for C3 on concrete valid 1024-shot runs: 512 outcomes of each of
the two supported basis states, for each circuit. -/
theorem sampling_matches_ideal_distribution_witness :
    QW.ValidRun QW.qc 1024 (List.replicate 512 0 ++ List.replicate 512 3) ∧
    QW.ValidRun QW.qc_ghz 1024 (List.replicate 512 0 ++ List.replicate 512 7) ∧
    ((∀ p ∈ QW.countsOf (QW.sampleStrings QW.qc
        (List.replicate 512 0 ++ List.replicate 512 3)),
      p.1 = "00" ∨ p.1 = "11") ∧
    ((QW.countsOf (QW.sampleStrings QW.qc
        (List.replicate 512 0 ++ List.replicate 512 3))).map Prod.snd).sum = 1024 ∧
    QW.outcomeProb QW.qc 0 = 1 / 2 ∧ QW.outcomeProb QW.qc 3 = 1 / 2 ∧
    QW.readout QW.qc 0 = "00" ∧ QW.readout QW.qc 3 = "11" ∧
    (∀ p ∈ QW.countsOf (QW.sampleStrings QW.qc_ghz
        (List.replicate 512 0 ++ List.replicate 512 7)),
      p.1 = "000" ∨ p.1 = "111") ∧
    ((QW.countsOf (QW.sampleStrings QW.qc_ghz
        (List.replicate 512 0 ++ List.replicate 512 7))).map Prod.snd).sum = 1024 ∧
    QW.outcomeProb QW.qc_ghz 0 = 1 / 2 ∧ QW.outcomeProb QW.qc_ghz 7 = 1 / 2 ∧
    QW.readout QW.qc_ghz 0 = "000" ∧ QW.readout QW.qc_ghz 7 = "111") :=
  ⟨validRun_bell_concrete, validRun_ghz_concrete,
   sampling_matches_ideal_distribution _ _ validRun_bell_concrete
     validRun_ghz_concrete⟩

/-- C5: a histogram-rendering failure is caught inside the try/except block
and downgraded to a printed warning, the script still runs to completion (the
failing 3-qubit trace is exactly the full event list, ending in the warning),
and the textual frequency-table report is printed in every run of either
script, whether or not visualization fails. -/
theorem visualization_failure_nonfatal :
    QW.threeQubitScript true =
      [QW.Event.acquireBackend 0, QW.Event.built "ghz",
       QW.Event.transpiled "ghz" 0, QW.Event.ran "ghz" 0 1024,
       QW.Event.printedDiagram "ghz", QW.Event.printedCounts "ghz",
       QW.Event.attemptedPlot "ghz", QW.Event.printedWarning "ghz"] ∧
    (∀ f : Bool, QW.Event.printedCounts "ghz" ∈ QW.threeQubitScript f) ∧
    (∀ b g : Bool,
      QW.Event.printedCounts "bell" ∈ QW.twoQubitScript b g ∧
      QW.Event.printedCounts "ghz" ∈ QW.twoQubitScript b g) ∧
    QW.Event.printedWarning "bell" ∈ QW.twoQubitScript true true ∧
    QW.Event.printedWarning "ghz" ∈ QW.twoQubitScript true true := by
  refine ⟨rfl, ?_, ?_, by decide, by decide⟩
  · intro f
    cases f <;> decide
  · intro b g
    cases b <;> cases g <;> exact ⟨by decide, by decide⟩

/-- C10: in the 2-qubit script the Bell frequency table is printed strictly
before the Bell histogram rendering is attempted, and even when the Bell
histogram block fails the GHZ pipeline is still built, transpiled, run, and
reported in full. -/
theorem bell_counts_printed_before_plot :
    (∀ b g : Bool,
      List.indexOf (QW.Event.printedCounts "bell") (QW.twoQubitScript b g) <
        List.indexOf (QW.Event.attemptedPlot "bell") (QW.twoQubitScript b g)) ∧
    (∀ g : Bool,
      QW.Event.built "ghz" ∈ QW.twoQubitScript true g ∧
      QW.Event.transpiled "ghz" 0 ∈ QW.twoQubitScript true g ∧
      QW.Event.ran "ghz" 0 1024 ∈ QW.twoQubitScript true g ∧
      QW.Event.printedDiagram "ghz" ∈ QW.twoQubitScript true g ∧
      QW.Event.printedCounts "ghz" ∈ QW.twoQubitScript true g) := by
  constructor
  · intro b g
    cases b <;> cases g <;> decide
  · intro g
    cases g <;>
      exact ⟨by decide, by decide, by decide, by decide, by decide⟩

/-- C8 counterexample: in `2 qubit GHZ state.py` the single backend handle
acquired at line 47 serves both the Bell run (line 59) and the GHZ run
(line 96): the trace holds more run events than backend acquisitions,
refuting the claim that a handle is scoped to one run with no reuse across
runs. -/
theorem backend_handle_reused_counterexample :
    ¬ QW.noHandleReuse (QW.twoQubitScript false false) := by
  unfold QW.noHandleReuse
  decide

/-- C8 amended: the standalone 3-qubit script acquires one backend handle for
its single run (so its handle is per-run scoped), but the 2-qubit script
acquires a single handle and reuses it for both of its runs — the Bell run
and the GHZ run; the two scripts are separate programs whose traces share no
state. -/
theorem backend_handle_reused_across_runs :
    (∀ b g : Bool,
      ((QW.twoQubitScript b g).filter (fun e =>
        match e with
        | QW.Event.acquireBackend _ => true
        | _ => false)).length = 1 ∧
      (QW.twoQubitScript b g).count (QW.Event.ran "bell" 0 1024) = 1 ∧
      (QW.twoQubitScript b g).count (QW.Event.ran "ghz" 0 1024) = 1) ∧
    (∀ g : Bool,
      ((QW.threeQubitScript g).filter (fun e =>
        match e with
        | QW.Event.acquireBackend _ => true
        | _ => false)).length = 1 ∧
      (QW.threeQubitScript g).count (QW.Event.ran "ghz" 0 1024) = 1 ∧
      QW.noHandleReuse (QW.threeQubitScript g)) := by
  constructor
  · intro b g
    cases b <;> cases g <;> exact ⟨by decide, by decide, by decide⟩
  · intro g
    cases g <;>
      exact ⟨by decide, by decide, by unfold QW.noHandleReuse; decide⟩
